import Mathlib

/-
Shallow embedding of the Heatmap-Clips repository (src/heatmap_clips.py).

Modelling conventions:
- Python datetime.time is PyTime; its constructor validates the field
  ranges (hour in 0..23, minute and second in 0..59) and raises ValueError
  otherwise, so every constructing conversion returns Except String PyTime.
- Python int is Int (Nat where the source value is a count of milliseconds
  or seconds known non-negative); // and % on ints are Int.ediv / Int.emod,
  which agree with Python floor division and modulo for positive divisors.
- int(ms / 1000) in milliseconds_to_time is modelled as Nat division by
  1000: for the non-negative millisecond counts in scope the float quotient
  truncates to the same value.
- Fallible code (exceptions) is Except String.
- The regex class \w of valid_filename is modelled at ASCII granularity
  (letters, digits, underscore), which is exact on the inputs of interest.
-/

structure PyTime where
  hour : Nat
  minute : Nat
  second : Nat
deriving DecidableEq, Repr

/-- Python comparison of datetime.time values: lexicographic on
(hour, minute, second) (microseconds are always zero here). -/
def pyTimeLe (a b : PyTime) : Prop :=
  a.hour < b.hour ∨ (a.hour = b.hour ∧
    (a.minute < b.minute ∨ (a.minute = b.minute ∧ a.second ≤ b.second)))

instance (a b : PyTime) : Decidable (pyTimeLe a b) := by
  unfold pyTimeLe; infer_instance

def pyTimeLeB (a b : PyTime) : Bool := decide (pyTimeLe a b)

/-- The datetime.time constructor: validates field ranges, raising
ValueError when a field is out of range (hour must be in 0..23). -/
def mkTime (h m s : Int) : Except String PyTime :=
  if 0 ≤ h ∧ h < 24 ∧ 0 ≤ m ∧ m < 60 ∧ 0 ≤ s ∧ s < 60 then
    .ok ⟨h.toNat, m.toNat, s.toNat⟩
  else
    .error "ValueError"

/-- milliseconds_to_time from the source: datetime.time of
(s // 3600, (s % 3600) // 60, s % 60) where s = int(ms / 1000). -/
def milliseconds_to_time (ms : Nat) : Except String PyTime :=
  let s := ms / 1000
  mkTime (s / 3600 : Nat) ((s % 3600) / 60 : Nat) (s % 60 : Nat)

/-- seconds_to_time from the source, integer branch: datetime.time of
(seconds // 3600, (seconds % 3600) // 60, seconds % 60); division and
modulo on Int are the Euclidean ones, which agree with Python for the
positive divisors used here. -/
def seconds_to_time (s : Int) : Except String PyTime :=
  mkTime (s / 3600) ((s % 3600) / 60) (s % 60)

/-- Python round to nearest with ties to even, on exact rationals
(the float inputs reaching it in this program are half-integers,
which floats represent exactly). -/
def pyRoundHalfEven (x : Rat) : Int :=
  let f := x.floor
  let r := x - (f : Rat)
  if r < 1/2 then f
  else if (1/2 : Rat) < r then f + 1
  else if f % 2 = 0 then f else f + 1

/-- seconds_to_time from the source, float branch: the input is rounded
to the nearest integer second (ties to even) and converted. -/
def seconds_to_time_rat (x : Rat) : Except String PyTime :=
  seconds_to_time (pyRoundHalfEven x)

/-- time_to_seconds from the source: (hour * 60 + minute) * 60 + second. -/
def time_to_seconds (t : PyTime) : Nat :=
  (t.hour * 60 + t.minute) * 60 + t.second

/-- The whitespace set removed by the Python str.strip() method
(ASCII subset). -/
def pyIsSpace (c : Char) : Bool :=
  c = ' ' || c = '\t' || c = '\n' || c = '\r' || c = '\x0b' || c = '\x0c'

/-- Python str.strip(): drop whitespace from both ends. -/
def pyStrip (s : String) : String :=
  String.mk (((s.toList.dropWhile pyIsSpace).reverse.dropWhile pyIsSpace).reverse)

/-- The regex class \w (ASCII model): letters, digits, underscore. -/
def isWordChar (c : Char) : Bool := c.isAlphanum || c = '_'

/-- valid_filename from the source: strip, replace spaces by underscores,
then delete every character not matching the character class [-\w.]. -/
def valid_filename (s : String) : String :=
  String.mk
    (((pyStrip s).toList.map (fun c => if c = ' ' then '_' else c)).filter
      (fun c => isWordChar c || c = '-' || c = '.'))

structure Thumbnail where
  url : String
  width : Int
  height : Int
deriving DecidableEq, Repr

structure Chapter where
  title : String
  start_time : PyTime
  end_time : PyTime
  thumbnails : List Thumbnail
deriving DecidableEq, Repr

structure Heatmap where
  chapter : Option Chapter
  start_time : Option PyTime
  end_time : Option PyTime
  intensity_score_normalised : Option Rat
deriving DecidableEq, Repr

structure VideoHeatmap where
  url : String
  heatmaps : List Heatmap
deriving DecidableEq, Repr

inductive ClipAlign where
  | left
  | center
  | right
deriving DecidableEq, Repr

/-
Raw marker data. The source reads a sequence of tagged entries; the tags
of interest are DESCRIPTION_CHAPTERS and HEATSEEKER. A payload of the
wrong shape makes the Python subscript chain raise KeyError.
-/

structure RawChapter where
  title : String
  timeRangeStartMillis : Nat
  thumbnails : List Thumbnail
deriving DecidableEq, Repr

structure RawHeatMarker where
  timeRangeStartMillis : Nat
  markerDurationMillis : Nat
  heatMarkerIntensityScoreNormalized : Rat
deriving DecidableEq, Repr

inductive MarkerValue where
  | chaptersVal : List RawChapter → MarkerValue
  | heatmapVal : List RawHeatMarker → MarkerValue
  | otherVal : MarkerValue
deriving DecidableEq, Repr

structure MarkerEntry where
  key : String
  value : MarkerValue
deriving DecidableEq, Repr

/-- The tag scan of get_chapters (break at the first entry keyed
DESCRIPTION_CHAPTERS; an absent tag yields the empty list). -/
def chapterDataOf (md : List MarkerEntry) : Except String (List RawChapter) :=
  match md.find? (fun e => e.key == "DESCRIPTION_CHAPTERS") with
  | none => .ok []
  | some e =>
    match e.value with
    | .chaptersVal l => .ok l
    | _ => .error "KeyError"

/-- The tag scan of get_heatmaps (break at the first entry keyed
HEATSEEKER; an absent tag yields the empty list). -/
def heatmapDataOf (md : List MarkerEntry) : Except String (List RawHeatMarker) :=
  match md.find? (fun e => e.key == "HEATSEEKER") with
  | none => .ok []
  | some e =>
    match e.value with
    | .heatmapVal l => .ok l
    | _ => .error "KeyError"

/-- Exception propagation: run the continuation on a success, propagate
a raised error unchanged. -/
def exBind (x : Except String α) (f : α → Except String β) : Except String β :=
  match x with
  | .error e => .error e
  | .ok a => f a

/-- The chapter construction loop of get_chapters: chapter i takes its
start from its own raw offset and its end from the offset of chapter
i+1, or from the video duration for the last chapter. Within one
iteration the source converts the end offset before the start offset. -/
def buildChapters (dur : Nat) : List RawChapter → Except String (List Chapter)
  | [] => .ok []
  | [c] =>
    exBind (seconds_to_time (dur : Int)) fun et =>
    exBind (milliseconds_to_time c.timeRangeStartMillis) fun st =>
    .ok [⟨c.title, st, et, c.thumbnails⟩]
  | c :: c2 :: rest =>
    exBind (milliseconds_to_time c2.timeRangeStartMillis) fun et =>
    exBind (milliseconds_to_time c.timeRangeStartMillis) fun st =>
    exBind (buildChapters dur (c2 :: rest)) fun tail =>
    .ok (⟨c.title, st, et, c.thumbnails⟩ :: tail)

/-- get_chapters from the source (the video argument contributes only
its duration, in seconds). -/
def get_chapters (md : List MarkerEntry) (dur : Nat) : Except String (List Chapter) :=
  match chapterDataOf md with
  | .error e => .error e
  | .ok raw => buildChapters dur raw

/-- The heatmap construction loop of get_heatmaps. For each raw marker
the chapter scan keeps overwriting a running match: every chapter whose
start_time is at most the converted marker start replaces the current
match, so the final value is the last qualifying chapter in list order
(None when no chapter qualifies). -/
def buildHeatmaps (chs : List Chapter) : List RawHeatMarker → Except String (List Heatmap)
  | [] => .ok []
  | r :: rest =>
    exBind (milliseconds_to_time r.timeRangeStartMillis) fun st =>
    exBind (milliseconds_to_time (r.timeRangeStartMillis + r.markerDurationMillis)) fun et =>
    exBind (buildHeatmaps chs rest) fun tail =>
    .ok (⟨chs.foldl (fun acc c => if pyTimeLeB c.start_time st then some c else acc) none,
          some st, some et, some r.heatMarkerIntensityScoreNormalized⟩ :: tail)

/-- get_heatmaps from the source. -/
def get_heatmaps (md : List MarkerEntry) (chs : List Chapter) : Except String (List Heatmap) :=
  match heatmapDataOf md with
  | .error e => .error e
  | .ok raw => buildHeatmaps chs raw

/-
Ranking and merge engine: VideoHeatmap.most_intense_heatmaps.

Python object identity matters here: sorted() returns references to the
very Heatmap objects held in self.heatmaps, and the in-place widening
writes through those references. The embedding therefore keeps an
explicit store (the list self.heatmaps) and manipulates indices into it;
the function returns both the result list and the final state of
self.heatmaps, so mutation of the receiver is observable.
-/

/-- Comparison of two optional intensity keys, descending test:
true when the right key is at most the left key. The None cases are
unreachable in the theorems below (Python raises TypeError there; the
embedding guards that raise separately in most_intense_heatmaps). -/
def optRatGeB : Option Rat → Option Rat → Bool
  | some a, some b => decide (b ≤ a)
  | _, _ => false

/-- Stable insertion step for a descending sort: the inserted element
precedes exactly the elements with a strictly smaller key, so elements
with equal keys keep their original relative order (Python sorted with
reverse=True is stable). -/
def insertDescBy (key : Nat → Option Rat) (i : Nat) : List Nat → List Nat
  | [] => [i]
  | j :: js => if optRatGeB (key i) (key j) then i :: j :: js else j :: insertDescBy key i js

/-- Stable descending sort of indices by key. -/
def sortIdx (key : Nat → Option Rat) (l : List Nat) : List Nat :=
  l.foldr (insertDescBy key) []

/-- Python comparison of two optional times; comparing None raises
TypeError, modelled as an error. -/
def pyLeOptTime : Option PyTime → Option PyTime → Except String Bool
  | some a, some b => .ok (pyTimeLeB a b)
  | _, _ => .error "TypeError"

/-- Python slicing l[:n]: for a non-negative bound take n elements,
for a negative bound stop that many elements before the end. -/
def pySliceTo (n : Int) (l : List α) : List α :=
  if 0 ≤ n then l.take n.toNat else l.take ((l.length : Int) + n).toNat

/-- Dictionary lookup merged_heatmaps.get(title): the stored value is an
index into the heatmap store (a Python object reference). -/
def lookupTitle (adm : List (String × Nat)) (t : String) : Option Nat :=
  (adm.find? (fun p => p.1 == t)).map (fun p => p.2)

/-- State of the merge loop: the heatmap store (the list underlying
self.heatmaps, mutated in place by widening) and the insertion-ordered
dictionary of admitted titles. -/
structure MergeState where
  store : List Heatmap
  admitted : List (String × Nat)
deriving DecidableEq, Repr

/-- The widening block of the merge loop: the start of the admitted
entry becomes the incoming start when that is at most the current start,
and the end becomes the incoming end when the current end is at most it.
Each comparison raises TypeError when a side is None. -/
def widenEntry (h e : Heatmap) : Except String Heatmap :=
  match pyLeOptTime h.start_time e.start_time with
  | .error msg => .error msg
  | .ok b1 =>
    let e1 := if b1 then { e with start_time := h.start_time } else e
    match pyLeOptTime e1.end_time h.end_time with
    | .error msg => .error msg
    | .ok b2 => .ok (if b2 then { e1 with end_time := h.end_time } else e1)

/-- One iteration of the merge loop, processing the heatmap at store
index i: skip when it has no chapter; admit its title when unseen and
the dictionary holds at most count entries; widen the admitted entry in
place when the title is already admitted; otherwise fall through. The
out-of-range index branches are unreachable (the loop walks a
permutation of the store indices). -/
def mergeStep (count : Int) (st : MergeState) (i : Nat) : Except String MergeState :=
  match st.store.get? i with
  | none => .ok st
  | some h =>
    match h.chapter with
    | none => .ok st
    | some c =>
      match lookupTitle st.admitted c.title with
      | none =>
        if (st.admitted.length : Int) ≤ count then
          .ok ⟨st.store, st.admitted ++ [(c.title, i)]⟩
        else
          .ok st
      | some j =>
        match st.store.get? j with
        | none => .ok st
        | some e =>
          match widenEntry h e with
          | .error msg => .error msg
          | .ok e2 => .ok ⟨st.store.set j e2, st.admitted⟩

/-- The merge loop over the sorted store indices. -/
def mergeLoop (count : Int) : List Nat → MergeState → Except String MergeState
  | [], st => .ok st
  | i :: is, st => exBind (mergeStep count st i) (mergeLoop count is)

/-- most_intense_heatmaps from the source. Returns the result list
together with the final contents of self.heatmaps (the receiver state,
which the merge path can mutate through aliasing). Sorting with a None
intensity key raises TypeError whenever the list has at least two
elements (every element takes part in at least one comparison). -/
def most_intense_heatmaps (vh : VideoHeatmap) (merge : Bool) (count : Int) :
    Except String (List Heatmap × List Heatmap) :=
  let store := vh.heatmaps
  if 2 ≤ store.length ∧ store.any (fun h => h.intensity_score_normalised.isNone) then
    .error "TypeError"
  else
    let key := fun i => (store.get? i).bind Heatmap.intensity_score_normalised
    let sIdx := sortIdx key (List.range store.length)
    let sorted := sIdx.filterMap (fun i => store.get? i)
    if ¬ merge ∨ ((sorted.countP (fun h => h.chapter.isSome) : Int) < count) then
      .ok (pySliceTo count sorted, store)
    else
      match mergeLoop count sIdx ⟨store, []⟩ with
      | .error msg => .error msg
      | .ok fin => .ok (fin.admitted.filterMap (fun p => fin.store.get? p.2), fin.store)

/-- The chapters property of VideoHeatmap. Its body reads the name
video_heatmap, which Python resolves as a module-level global of
heatmap_clips, not as self; the environment of that global is passed
explicitly here. -/
def VideoHeatmap.chapters (globalVar : Option VideoHeatmap) (_self : VideoHeatmap) :
    Except String (List Chapter) :=
  match globalVar with
  | none => .error "NameError"
  | some g => .ok (g.heatmaps.filterMap Heatmap.chapter)

/-- The module heatmap_clips never assigns a global named video_heatmap
(the only binding of that name in the repository is a function-local
variable of main.py), so the global is undefined. -/
def videoHeatmapGlobal : Option VideoHeatmap := none

/-- Written from the claim text, for comparison with the code: the view
the claim describes, the chapters referenced by the heatmaps of this
same VideoHeatmap, in heatmap order. -/
def chaptersOfSelf (self : VideoHeatmap) : List Chapter :=
  self.heatmaps.filterMap Heatmap.chapter

/-
Clip interval calculator: Video.generate_clip computes the subclip
interval (the rendering itself is external I/O); the result is the clip
file label, the start second, and the end second where none means
open-ended (clip to the end of the source). Video.generate_chapter_clips
computes the per-chapter aligned times and hands them to generate_clip.
-/

/-- The subclip interval of generate_clip: the start is clamped below by
zero (time_to_seconds is already non-negative, so the clamp is the
identity), the end becomes open-ended at or beyond the video duration. -/
def generate_clip (duration : Nat) (clip_file_name : String) (st et : PyTime) :
    String × Nat × Option Nat :=
  (clip_file_name,
   if time_to_seconds st > 0 then time_to_seconds st else 0,
   if time_to_seconds et < duration then some (time_to_seconds et) else none)

/-- Python truthiness of the optional clip length: None and 0 are falsy. -/
def lengthTruthy : Option Int → Bool
  | none => false
  | some l => l != 0

/-- The per-chapter body of generate_chapter_clips: with a truthy length
the aligned start and end are computed (an align of None falls into the
center branch, as in the source where both equality tests fail);
otherwise the chapter bounds are used unchanged. Each seconds_to_time
call raises ValueError when its argument falls outside one day. -/
def chapterClipOf (duration : Nat) (align : Option ClipAlign) (length : Option Int)
    (ch : Chapter) : Except String (String × Nat × Option Nat) :=
  let label := valid_filename ch.title ++ ".mp4"
  match length, lengthTruthy length with
  | some l, true =>
    match align with
    | some .left =>
      match seconds_to_time ((time_to_seconds ch.start_time : Int) + l) with
      | .error e => .error e
      | .ok et => .ok (generate_clip duration label ch.start_time et)
    | some .right =>
      match seconds_to_time ((time_to_seconds ch.start_time : Int) - l) with
      | .error e => .error e
      | .ok st => .ok (generate_clip duration label st ch.end_time)
    | _ =>
      let middle : Int :=
        ((time_to_seconds ch.start_time : Int) + (time_to_seconds ch.end_time : Int)).ediv 2
      match seconds_to_time_rat ((middle : Rat) - (l : Rat) / 2) with
      | .error e => .error e
      | .ok st =>
        match seconds_to_time_rat ((middle : Rat) + (l : Rat) / 2) with
        | .error e => .error e
        | .ok et => .ok (generate_clip duration label st et)
  | _, _ => .ok (generate_clip duration label ch.start_time ch.end_time)

/-- generate_chapter_clips from the source: the per-chapter intervals in
chapter order; an exception in any iteration aborts the loop. -/
def generate_chapter_clips (duration : Nat) (chapters : List Chapter)
    (align : Option ClipAlign) (length : Option Int) :
    Except String (List (String × Nat × Option Nat)) :=
  match chapters with
  | [] => .ok []
  | ch :: rest =>
    exBind (chapterClipOf duration align length ch) fun entry =>
    exBind (generate_chapter_clips duration rest align length) fun tail =>
    .ok (entry :: tail)

/-
Concrete inputs used by the witnesses and counterexamples below.
-/

def chIntroC2 : Chapter := ⟨"Intro", ⟨0, 0, 0⟩, ⟨0, 2, 0⟩, []⟩

def hmC2a : Heatmap := ⟨some chIntroC2, some ⟨0, 0, 10⟩, some ⟨0, 0, 20⟩, some (mkRat 9 10)⟩

def hmC2b : Heatmap := ⟨some chIntroC2, some ⟨0, 0, 15⟩, some ⟨0, 0, 30⟩, some (mkRat 4 5)⟩

def vhC2 : VideoHeatmap := ⟨"url", [hmC2a, hmC2b]⟩

def chIntroC8 : Chapter := ⟨"Intro", ⟨0, 0, 0⟩, ⟨0, 2, 0⟩, []⟩

def hmC8a : Heatmap := ⟨some chIntroC8, some ⟨0, 0, 10⟩, some ⟨0, 0, 20⟩, some (mkRat 9 10)⟩

def hmC8b : Heatmap := ⟨some chIntroC8, some ⟨0, 0, 15⟩, some ⟨0, 0, 30⟩, some (mkRat 4 5)⟩

def hmC8widened : Heatmap := ⟨some chIntroC8, some ⟨0, 0, 10⟩, some ⟨0, 0, 30⟩, some (mkRat 9 10)⟩

def vhC8 : VideoHeatmap := ⟨"url", [hmC8a, hmC8b]⟩

def chIntroC7 : Chapter := ⟨"Intro", ⟨0, 0, 0⟩, ⟨0, 1, 0⟩, []⟩

def vhC7 : VideoHeatmap :=
  ⟨"url", [⟨some chIntroC7, some ⟨0, 0, 1⟩, some ⟨0, 0, 2⟩, some 1⟩]⟩

def vhC9 : VideoHeatmap :=
  ⟨"url", [⟨none, some ⟨0, 0, 1⟩, some ⟨0, 0, 2⟩, some (mkRat 1 2)⟩,
           ⟨none, some ⟨0, 0, 3⟩, some ⟨0, 0, 4⟩, some (mkRat 1 4)⟩]⟩

def chC3 : Chapter := ⟨"A", ⟨0, 0, 0⟩, ⟨0, 1, 0⟩, []⟩

def hmC3 : Heatmap := ⟨some chC3, some ⟨0, 0, 10⟩, some ⟨0, 0, 20⟩, some (mkRat 1 2)⟩

def vhC3 : VideoHeatmap := ⟨"url", [hmC3]⟩

def chC4 : Chapter := ⟨"A", ⟨0, 0, 5⟩, ⟨0, 1, 0⟩, []⟩

def mdC6 : List MarkerEntry := [⟨"DESCRIPTION_CHAPTERS", .chaptersVal [⟨"A", 5000, []⟩]⟩]

def rawC6w : List RawChapter := [⟨"A", 0, []⟩, ⟨"B", 60000, []⟩]

def csC6w : List Chapter :=
  [⟨"A", ⟨0, 0, 0⟩, ⟨0, 1, 0⟩, []⟩, ⟨"B", ⟨0, 1, 0⟩, ⟨0, 2, 0⟩, []⟩]

def mdC6w : List MarkerEntry := [⟨"DESCRIPTION_CHAPTERS", .chaptersVal rawC6w⟩]

def chC1a : Chapter := ⟨"C0", ⟨0, 0, 0⟩, ⟨0, 1, 0⟩, []⟩

def chC1b : Chapter := ⟨"C60", ⟨0, 1, 0⟩, ⟨0, 2, 0⟩, []⟩

def chC1c : Chapter := ⟨"C120", ⟨0, 2, 0⟩, ⟨0, 3, 0⟩, []⟩

def mdC1 : List MarkerEntry := [⟨"HEATSEEKER", .heatmapVal [⟨90000, 5000, mkRat 1 2⟩]⟩]

def hmC1res : Heatmap := ⟨some chC1b, some ⟨0, 1, 30⟩, some ⟨0, 1, 35⟩, some (mkRat 1 2)⟩

/-
Helper lemmas.
-/

theorem exBind_ok (a : α) (f : α → Except String β) : exBind (.ok a) f = f a := rfl

theorem exBind_error (e : String) (f : α → Except String β) :
    exBind (.error e) f = .error e := rfl

theorem pyTimeLe_refl (a : PyTime) : pyTimeLe a a := by
  unfold pyTimeLe; omega

theorem pyTimeLe_total (a b : PyTime) : pyTimeLe a b ∨ pyTimeLe b a := by
  unfold pyTimeLe; omega

theorem pyTimeLeB_false {a b : PyTime} (h : pyTimeLeB a b = false) : pyTimeLe b a := by
  have hn : ¬ pyTimeLe a b := of_decide_eq_false h
  rcases pyTimeLe_total a b with h1 | h1
  · exact absurd h1 hn
  · exact h1

theorem pyTimeLeB_true {a b : PyTime} (h : pyTimeLeB a b = true) : pyTimeLe a b :=
  of_decide_eq_true h

theorem getLast?_cons_orElse (c : α) (xs : List α) :
    (c :: xs).getLast? = (xs.getLast? <|> some c) := by
  cases xs with
  | nil => rfl
  | cons d ds =>
    rw [List.getLast?_cons_cons]
    rw [List.getLast?_eq_getLast_of_ne_nil (List.cons_ne_nil d ds)]
    rfl

/-- A foldl that overwrites its accumulator at every element satisfying p
computes the last satisfying element, falling back to the initial value. -/
theorem foldl_overwrite_eq_filter_getLast (p : α → Bool) :
    ∀ (l : List α) (init : Option α),
      l.foldl (fun acc c => if p c then some c else acc) init
        = ((l.filter p).getLast? <|> init)
  | [], init => rfl
  | c :: l, init => by
    rw [List.foldl_cons, foldl_overwrite_eq_filter_getLast p l]
    by_cases hp : p c = true
    · rw [if_pos hp, List.filter_cons_of_pos hp, getLast?_cons_orElse]
      cases hl : (l.filter p).getLast? with
      | none => rfl
      | some v => rfl
    · rw [if_neg (by simp [hp]), List.filter_cons_of_neg (by simp [hp])]

/-- Every heatmap produced by the construction loop carries a start time
and gets, as its chapter, the overwriting chapter scan of that start. -/
theorem buildHeatmaps_mem (chs : List Chapter) (raw : List RawHeatMarker) :
    ∀ (hms : List Heatmap),
      buildHeatmaps chs raw = .ok hms →
      ∀ hm ∈ hms, ∃ st, hm.start_time = some st ∧
        hm.chapter
          = chs.foldl (fun acc c => if pyTimeLeB c.start_time st then some c else acc) none := by
  induction raw with
  | nil =>
    intro hms hok hm hmem
    simp only [buildHeatmaps] at hok
    cases hok
    simp at hmem
  | cons r rest ih =>
    intro hms hok hm hmem
    simp only [buildHeatmaps] at hok
    cases hst : milliseconds_to_time r.timeRangeStartMillis with
    | error e => rw [hst, exBind_error] at hok; cases hok
    | ok st =>
      rw [hst, exBind_ok] at hok
      cases het : milliseconds_to_time (r.timeRangeStartMillis + r.markerDurationMillis) with
      | error e => rw [het, exBind_error] at hok; cases hok
      | ok et =>
        rw [het, exBind_ok] at hok
        cases htl : buildHeatmaps chs rest with
        | error e => rw [htl, exBind_error] at hok; cases hok
        | ok tail =>
          rw [htl, exBind_ok] at hok
          cases hok
          rcases List.mem_cons.mp hmem with hhd | htlmem
          · subst hhd
            exact ⟨st, rfl, rfl⟩
          · exact ih tail htl hm htlmem

/-- A merge-loop step either leaves the admitted dictionary unchanged or
appends one entry, the latter only when the dictionary held at most
count entries. -/
theorem mergeStep_admitted (count : Int) (st : MergeState) (i : Nat) (st2 : MergeState)
    (heq : mergeStep count st i = .ok st2) :
    st2.admitted = st.admitted ∨
      ∃ p, st2.admitted = st.admitted ++ [p] ∧ (st.admitted.length : Int) ≤ count := by
  unfold mergeStep at heq
  split at heq
  · cases heq; left; rfl
  · split at heq
    · cases heq; left; rfl
    · split at heq
      · split at heq
        · cases heq
          right
          exact ⟨_, rfl, by assumption⟩
        · cases heq; left; rfl
      · split at heq
        · cases heq; left; rfl
        · split at heq
          · cases heq
          · cases heq; left; rfl

/-- Along the merge loop the admitted dictionary never exceeds
max (count + 1) 0 entries. -/
theorem mergeLoop_admitted_le (count : Int) :
    ∀ (idxs : List Nat) (st st2 : MergeState),
      mergeLoop count idxs st = .ok st2 →
      (st.admitted.length : Int) ≤ max (count + 1) 0 →
      (st2.admitted.length : Int) ≤ max (count + 1) 0 := by
  intro idxs
  induction idxs with
  | nil =>
    intro st st2 heq hle
    simp only [mergeLoop] at heq
    cases heq
    exact hle
  | cons i is ih =>
    intro st st2 heq hle
    simp only [mergeLoop] at heq
    cases hstep : mergeStep count st i with
    | error e => rw [hstep, exBind_error] at heq; cases heq
    | ok st1 =>
      rw [hstep, exBind_ok] at heq
      refine ih st1 st2 heq ?_
      rcases mergeStep_admitted count st i st1 hstep with hsame | ⟨p, happ, hlen⟩
      · rw [hsame]; exact hle
      · rw [happ, List.length_append]
        simp only [List.length_singleton]
        omega

/-- The length of a Python slice l[:n] with positive n is at most
max (n + 1) 0. -/
theorem pySliceTo_length_le (n : Int) (hn : 0 < n) (l : List α) :
    ((pySliceTo n l).length : Int) ≤ max (n + 1) 0 := by
  unfold pySliceTo
  rw [if_pos (le_of_lt hn)]
  have ht := List.length_take n.toNat l
  omega

/-- The stable insertion step permutes its input together with the
inserted element. -/
theorem insertDescBy_perm (key : Nat → Option Rat) (i : Nat) :
    ∀ l : List Nat, (insertDescBy key i l).Perm (i :: l) := by
  intro l
  induction l with
  | nil => exact List.Perm.refl _
  | cons j js ih =>
    simp only [insertDescBy]
    split
    · exact List.Perm.refl _
    · exact (List.Perm.cons j ih).trans (List.Perm.swap i j js)

/-- The stable descending sort permutes its input. -/
theorem sortIdx_perm (key : Nat → Option Rat) :
    ∀ l : List Nat, (sortIdx key l).Perm l := by
  intro l
  induction l with
  | nil => exact List.Perm.refl _
  | cons i is ih =>
    simp only [sortIdx, List.foldr_cons]
    exact (insertDescBy_perm key i _).trans (List.Perm.cons i ih)

/-- Reading every index of a list back through get? reproduces the
list. -/
theorem filterMap_get?_range :
    ∀ (l : List α), (List.range l.length).filterMap (fun i => l.get? i) = l := by
  intro l
  induction l with
  | nil => rfl
  | cons a as ih =>
    rw [List.length_cons, List.range_succ_eq_map, List.filterMap_cons]
    simp only [List.get?]
    rw [List.filterMap_map]
    exact congrArg (List.cons a) ih

/-- On heatmaps whose four times are present, the widening block keeps
the chapter and intensity of the admitted entry and selects the two
if-chosen endpoint times. -/
theorem widenEntry_some (h e : Heatmap) (hs he es ee : PyTime)
    (h1 : h.start_time = some hs) (h2 : h.end_time = some he)
    (h3 : e.start_time = some es) (h4 : e.end_time = some ee) :
    widenEntry h e =
      .ok ⟨e.chapter, some (if pyTimeLeB hs es then hs else es),
           some (if pyTimeLeB ee he then he else ee), e.intensity_score_normalised⟩ := by
  obtain ⟨ech, est, eet, eint⟩ := e
  simp only at h3 h4
  subst h3 h4
  by_cases hb1 : pyTimeLeB hs es = true <;> by_cases hb2 : pyTimeLeB ee he = true <;>
    simp [widenEntry, h1, h2, pyLeOptTime, hb1, hb2]

/-- Characterization of the chapter construction loop: on success it is
index-aligned with the raw list, every start time is the conversion of
the raw offset at the same index, and every end time is the conversion
of the next raw offset — of the video duration at the final index. -/
theorem buildChapters_spec (dur : Nat) :
    ∀ (raw : List RawChapter) (cs : List Chapter),
      buildChapters dur raw = .ok cs →
      cs.length = raw.length ∧
      ∀ k ck, cs.get? k = some ck →
        (∃ rk, raw.get? k = some rk ∧
          milliseconds_to_time rk.timeRangeStartMillis = .ok ck.start_time) ∧
        (match raw.get? (k + 1) with
         | some r2 => milliseconds_to_time r2.timeRangeStartMillis = .ok ck.end_time
         | none => seconds_to_time (dur : Int) = .ok ck.end_time) := by
  intro raw
  induction raw with
  | nil =>
    intro cs hok
    simp only [buildChapters] at hok
    cases hok
    refine ⟨rfl, ?_⟩
    intro k ck hck
    simp at hck
  | cons c rest ih =>
    intro cs hok
    cases rest with
    | nil =>
      simp only [buildChapters] at hok
      cases hsd : seconds_to_time (dur : Int) with
      | error e => rw [hsd, exBind_error] at hok; cases hok
      | ok et =>
        rw [hsd, exBind_ok] at hok
        cases hms : milliseconds_to_time c.timeRangeStartMillis with
        | error e => rw [hms, exBind_error] at hok; cases hok
        | ok st =>
          rw [hms, exBind_ok] at hok
          cases hok
          refine ⟨rfl, ?_⟩
          intro k ck hck
          cases k with
          | zero =>
            simp only [List.get?] at hck
            cases hck
            exact ⟨⟨c, rfl, hms⟩, rfl⟩
          | succ k => simp at hck
    | cons c2 rest2 =>
      simp only [buildChapters] at hok
      cases het : milliseconds_to_time c2.timeRangeStartMillis with
      | error e => rw [het, exBind_error] at hok; cases hok
      | ok et =>
        rw [het, exBind_ok] at hok
        cases hms : milliseconds_to_time c.timeRangeStartMillis with
        | error e => rw [hms, exBind_error] at hok; cases hok
        | ok st =>
          rw [hms, exBind_ok] at hok
          cases htl : buildChapters dur (c2 :: rest2) with
          | error e => rw [htl, exBind_error] at hok; cases hok
          | ok tail =>
            rw [htl, exBind_ok] at hok
            cases hok
            obtain ⟨hlen, hspec⟩ := ih tail htl
            refine ⟨by simp [hlen], ?_⟩
            intro k ck hck
            cases k with
            | zero =>
              simp only [List.get?] at hck
              cases hck
              exact ⟨⟨c, rfl, hms⟩, het⟩
            | succ k =>
              have hck2 : tail.get? k = some ck := hck
              obtain ⟨⟨rk, hrk, hrst⟩, hend⟩ := hspec k ck hck2
              exact ⟨⟨rk, hrk, hrst⟩, hend⟩

/-
Claim theorems.
-/

/-- C1: every heatmap extracted by get_heatmaps is assigned, as its
chapter, the last chapter in list order whose start time is at most the
heatmap start time (the forward scan keeps overwriting a running match),
and the chapter field stays unset when no chapter qualifies — when the
chapter list is empty or the heatmap starts before every chapter. -/
theorem heatmap_chapter_is_last_qualifying (md : List MarkerEntry) (chs : List Chapter)
    (hms : List Heatmap) (hok : get_heatmaps md chs = .ok hms) :
    ∀ hm ∈ hms, ∃ st, hm.start_time = some st ∧
      hm.chapter = (chs.filter (fun c => pyTimeLeB c.start_time st)).getLast? := by
  intro hm hmem
  unfold get_heatmaps at hok
  cases hfind : heatmapDataOf md with
  | error e => rw [hfind] at hok; cases hok
  | ok raw =>
    rw [hfind] at hok
    obtain ⟨st, hst, hch⟩ := buildHeatmaps_mem chs raw hms hok hm hmem
    refine ⟨st, hst, ?_⟩
    rw [hch, foldl_overwrite_eq_filter_getLast, Option.orElse_none]

/-- C1 witness: three chapters starting at 0, 60 and 120 seconds and a
heatmap starting at 90 seconds; the assigned chapter is the one starting
at 60 seconds, the last qualifying one. -/
theorem heatmap_chapter_is_last_qualifying_witness :
    ∃ st, hmC1res.start_time = some st ∧
      hmC1res.chapter
        = (([chC1a, chC1b, chC1c].filter (fun c => pyTimeLeB c.start_time st)).getLast?) :=
  heatmap_chapter_is_last_qualifying mdC1 [chC1a, chC1b, chC1c] [hmC1res] rfl hmC1res
    (List.mem_singleton_self hmC1res)

/-- C10: valid_filename trims the input, replaces spaces with
underscores, then strips every character that is not a word character,
hyphen or period: the input "My Chapter: Part 1!" becomes
"My_Chapter_Part_1", and every character of any output is a word
character, a hyphen or a period. -/
theorem valid_filename_trims_replaces_strips :
    valid_filename "My Chapter: Part 1!" = "My_Chapter_Part_1" ∧
    ∀ s : String, ∀ c ∈ (valid_filename s).toList,
      (isWordChar c || c = '-' || c = '.') = true := by
  refine ⟨by decide, ?_⟩
  intro s c hc
  have hc2 : c ∈ List.filter (fun c => isWordChar c || c = '-' || c = '.')
      ((pyStrip s).toList.map (fun c => if c = ' ' then '_' else c)) := hc
  exact (List.mem_filter.mp hc2).2

/-- C10 witness: instantiation of the output character-class property at
a concrete string and character. -/
theorem valid_filename_trims_replaces_strips_witness :
    (isWordChar 'M' || 'M' = '-' || 'M' = '.') = true :=
  valid_filename_trims_replaces_strips.2 "M" 'M' (by decide)

/-- C5 counterexample: seconds_to_time rejects 86400 seconds — the
computed hour 24 is out of range for the time-of-day type — so the
round trip fails there: hours are bounded below 24, not unbounded. -/
theorem seconds_to_time_rejects_one_day :
    seconds_to_time 86400 = .error "ValueError" := by rfl

/-- C5 amended: for every second count below one day the round trip
time_to_seconds of seconds_to_time is exact; at or beyond one day
seconds_to_time raises ValueError instead — the hour component is
restricted below 24 by the time-of-day type, neither wrapped nor
accepted. -/
theorem seconds_time_round_trip (s : Nat) :
    (s < 86400 → ∃ t, seconds_to_time (s : Int) = .ok t ∧ time_to_seconds t = s) ∧
    (86400 ≤ s → seconds_to_time (s : Int) = .error "ValueError") := by
  constructor
  · intro hlt
    refine ⟨⟨((s : Int) / 3600).toNat, (((s : Int) % 3600) / 60).toNat,
             ((s : Int) % 60).toNat⟩, ?_, ?_⟩
    · unfold seconds_to_time mkTime
      rw [if_pos (by omega)]
    · unfold time_to_seconds
      simp only
      omega
  · intro hge
    unfold seconds_to_time mkTime
    rw [if_neg (by omega)]

/-- C5 witness: the exact round trip at 3661 seconds. -/
theorem seconds_time_round_trip_witness :
    ∃ t, seconds_to_time ((3661 : Nat) : Int) = .ok t ∧ time_to_seconds t = 3661 :=
  (seconds_time_round_trip 3661).1 (by decide)

/-- C4: the right-aligned clip pipeline does not clamp a negative
computed start to zero: a chapter starting at 5 seconds with length 20
makes generate_chapter_clips raise ValueError (the time-of-day type
rejects the negative hour computed by seconds_to_time) before
generate_clip is ever reached; the clamp inside generate_clip is the
identity, a time-of-day value never converting to a negative second
count. -/
theorem right_align_negative_start_raises :
    generate_chapter_clips 100 [chC4] (some .right) (some 20) = .error "ValueError" ∧
    ∀ (dur : Nat) (lbl : String) (st et : PyTime),
      (generate_clip dur lbl st et).2.1 = time_to_seconds st := by
  constructor
  · rfl
  · intro dur lbl st et
    show (if time_to_seconds st > 0 then time_to_seconds st else 0) = time_to_seconds st
    split
    · rfl
    · omega

/-- C7: the chapters property reads the undefined module global
video_heatmap instead of self, so it raises NameError for every
VideoHeatmap rather than returning the chapters referenced by the
heatmaps of self; at a concrete VideoHeatmap the self-derived view the
claim describes is nonempty while the property raises. -/
theorem chapters_property_reads_undefined_global :
    (∀ self : VideoHeatmap,
      VideoHeatmap.chapters videoHeatmapGlobal self = .error "NameError") ∧
    chaptersOfSelf vhC7 = [chIntroC7] :=
  ⟨fun _ => rfl, rfl⟩

/-- C9 counterexample: with count zero and merge false,
most_intense_heatmaps on a two-heatmap video returns the empty list
normally, the receiver untouched, instead of rejecting the call with an
error. -/
theorem count_zero_returns_normally :
    most_intense_heatmaps vhC9 false 0 = .ok ([], vhC9.heatmaps) := by rfl

/-- C9 amended: most_intense_heatmaps performs no validation of count:
for every non-positive count with merge false it returns normally — the
receiver unchanged and the result the Python slice of the sorted list,
which is empty at count zero — rather than rejecting the call. -/
theorem non_positive_count_returns_normally (vh : VideoHeatmap) (count : Int)
    (hall : ∀ h ∈ vh.heatmaps, h.intensity_score_normalised.isSome = true)
    (hc : count ≤ 0) :
    ∃ res, most_intense_heatmaps vh false count = .ok res ∧
      res.2 = vh.heatmaps ∧ (count = 0 → res.1 = []) := by
  simp only [most_intense_heatmaps]
  rw [if_neg, if_pos]
  · refine ⟨_, rfl, rfl, ?_⟩
    intro h0
    subst h0
    simp [pySliceTo]
  · exact Or.inl (by simp)
  · rintro ⟨-, hany⟩
    rw [List.any_eq_true] at hany
    obtain ⟨x, hx, hnone⟩ := hany
    have hsome := hall x hx
    rw [Option.isNone_iff_eq_none] at hnone
    rw [hnone] at hsome
    cases hsome

/-- C9 witness: instantiation at a concrete video and count -1. -/
theorem non_positive_count_returns_normally_witness :
    ∃ res, most_intense_heatmaps vhC9 false (-1) = .ok res ∧
      res.2 = vhC9.heatmaps ∧ ((-1 : Int) = 0 → res.1 = []) :=
  non_positive_count_returns_normally vhC9 (-1) (by decide) (by decide)

/-- C8 counterexample: merging mutates the receiver. On a video with two
heatmaps of one chapter title the widening writes through the alias into
the stored list: afterwards its first entry ends at 30 seconds instead
of 20, so the published heatmaps list of the receiver has changed. -/
theorem merge_mutates_receiver :
    most_intense_heatmaps vhC8 true 2 = .ok ([hmC8widened], [hmC8widened, hmC8b]) ∧
    [hmC8widened, hmC8b] ≠ vhC8.heatmaps := by
  exact ⟨by rfl, by decide⟩

/-- C8 amended: the in-place widening is not restricted to fresh
instances — the merge path mutates the Heatmap objects stored in the
receiver (see the counterexample); the receiver is left unchanged on the
whole non-merging path: whenever merge is false, or fewer heatmaps of
the receiver carry a chapter than count (the short-circuit that returns
the sorted slice), the returned state equals the original heatmaps
list. -/
theorem no_merge_path_preserves_receiver (vh : VideoHeatmap) (merge : Bool) (count : Int)
    (hall : ∀ h ∈ vh.heatmaps, h.intensity_score_normalised.isSome = true)
    (hpath : merge = false ∨
      ((vh.heatmaps.countP (fun h => h.chapter.isSome) : Int) < count)) :
    ∃ res, most_intense_heatmaps vh merge count = .ok res ∧ res.2 = vh.heatmaps := by
  simp only [most_intense_heatmaps]
  rw [if_neg, if_pos]
  · exact ⟨_, rfl, rfl⟩
  · rcases hpath with hfalse | hlt
    · subst hfalse
      exact Or.inl (by simp)
    · refine Or.inr ?_
      have hperm :=
        (sortIdx_perm
            (fun i => (vh.heatmaps.get? i).bind Heatmap.intensity_score_normalised)
            (List.range vh.heatmaps.length)).filterMap (fun i => vh.heatmaps.get? i)
      rw [filterMap_get?_range] at hperm
      rw [List.Perm.countP_eq (fun h => h.chapter.isSome) hperm]
      exact hlt
  · rintro ⟨-, hany⟩
    rw [List.any_eq_true] at hany
    obtain ⟨x, hx, hnone⟩ := hany
    have hsome := hall x hx
    rw [Option.isNone_iff_eq_none] at hnone
    rw [hnone] at hsome
    cases hsome

/-- C8 witness: instantiation at a concrete video with merge requested
but only two chapter-bearing heatmaps against a count of three — the
short-circuit path — so the receiver is returned unchanged. -/
theorem no_merge_path_preserves_receiver_witness :
    ∃ res, most_intense_heatmaps vhC8 true 3 = .ok res ∧ res.2 = vhC8.heatmaps :=
  no_merge_path_preserves_receiver vhC8 true 3 (by decide) (Or.inr (by decide))

/-- C3 counterexample: with count -2 and merge true on a single-chapter
video the merge path runs and returns the empty list, whose 0 entries
exceed count + 1 = -1, so the at-most-count-plus-one bound fails as a
statement about every input. -/
theorem merged_result_bound_counterexample :
    most_intense_heatmaps vhC3 true (-2) = .ok ([], vhC3.heatmaps) ∧
    ¬ ((List.length ([] : List Heatmap) : Int) ≤ (-2) + 1) := by
  exact ⟨by rfl, by decide⟩

/-- C3 amended: a heatmap whose chapter title is not yet admitted is
admitted exactly when the dictionary size is at most count — equivalently
when fewer than count + 1 titles have been admitted so far; consequently
the result of a merging call has at most max (count + 1) 0 entries: at
most count + 1, one more than count, for every count of at least -1, and
in particular for every non-negative count. -/
theorem admission_check_and_result_bound :
    (∀ (count : Int) (st : MergeState) (i : Nat) (h : Heatmap) (c : Chapter),
      st.store.get? i = some h → h.chapter = some c →
      lookupTitle st.admitted c.title = none →
      mergeStep count st i =
        .ok ⟨st.store,
             if (st.admitted.length : Int) ≤ count then st.admitted ++ [(c.title, i)]
             else st.admitted⟩ ∧
      (((st.admitted.length : Int) ≤ count) ↔ ((st.admitted.length : Int) < count + 1))) ∧
    (∀ (vh : VideoHeatmap) (count : Int) (res : List Heatmap × List Heatmap),
      most_intense_heatmaps vh true count = .ok res →
      (res.1.length : Int) ≤ max (count + 1) 0) := by
  constructor
  · intro count st i h c hget hch hlk
    constructor
    · simp only [mergeStep, hget, hch, hlk]
      split
      · rfl
      · rfl
    · omega
  · intro vh count res hres
    simp only [most_intense_heatmaps] at hres
    split at hres
    · cases hres
    · split at hres
      · cases hres
        rename_i hcond
        rcases hcond with hfalse | hlt
        · exact absurd trivial hfalse
        · exact pySliceTo_length_le count (by omega) _
      · rename_i hcond
        cases hloop : mergeLoop count
            (sortIdx (fun i => (vh.heatmaps.get? i).bind Heatmap.intensity_score_normalised)
              (List.range vh.heatmaps.length)) ⟨vh.heatmaps, []⟩ with
        | error e => rw [hloop] at hres; cases hres
        | ok fin =>
          rw [hloop] at hres
          cases hres
          show ((fin.admitted.filterMap (fun p => fin.store.get? p.2)).length : Int)
            ≤ max (count + 1) 0
          have hbound := mergeLoop_admitted_le count _ _ fin hloop
            (by simp)
          have hfm := List.length_filterMap_le (fun p => fin.store.get? p.2) fin.admitted
          omega

/-- C3 witness: instantiation of the admission rule at a concrete state
in which the title is not yet admitted. -/
theorem admission_check_and_result_bound_witness :
    mergeStep 3 ⟨[hmC3], []⟩ 0 =
      .ok ⟨[hmC3],
           if ((([] : List (String × Nat)).length : Int) ≤ 3)
           then ([] : List (String × Nat)) ++ [(chC3.title, 0)]
           else ([] : List (String × Nat))⟩ ∧
    (((([] : List (String × Nat)).length : Int) ≤ 3) ↔
      ((([] : List (String × Nat)).length : Int) < 3 + 1)) :=
  admission_check_and_result_bound.1 3 ⟨[hmC3], []⟩ 0 hmC3 chC3 rfl rfl rfl

/-- C2: in the merge path, a heatmap whose chapter title is already
admitted widens the admitted entry in place — the stored entry keeps its
chapter and intensity while its start time becomes the smaller of the
two start times and its end time the larger of the two end times, and
the dictionary is unchanged; concretely, two heatmaps of one chapter
title with intervals of 10 to 20 and 15 to 30 seconds merge into a
single entry spanning 10 to 30 seconds. -/
theorem merge_widens_admitted_entry :
    (∀ (count : Int) (st : MergeState) (i j : Nat) (h e : Heatmap) (c : Chapter)
       (hs he es ee : PyTime),
      st.store.get? i = some h → h.chapter = some c →
      lookupTitle st.admitted c.title = some j → st.store.get? j = some e →
      h.start_time = some hs → h.end_time = some he →
      e.start_time = some es → e.end_time = some ee →
      ∃ m M,
        mergeStep count st i =
          .ok ⟨st.store.set j ⟨e.chapter, some m, some M, e.intensity_score_normalised⟩,
               st.admitted⟩ ∧
        (m = hs ∨ m = es) ∧ pyTimeLe m hs ∧ pyTimeLe m es ∧
        (M = he ∨ M = ee) ∧ pyTimeLe he M ∧ pyTimeLe ee M) ∧
    most_intense_heatmaps vhC2 true 2 =
      .ok ([⟨some chIntroC2, some ⟨0, 0, 10⟩, some ⟨0, 0, 30⟩, some (mkRat 9 10)⟩],
           [⟨some chIntroC2, some ⟨0, 0, 10⟩, some ⟨0, 0, 30⟩, some (mkRat 9 10)⟩, hmC2b]) := by
  constructor
  · intro count st i j h e c hs he es ee hgi hch hlk hgj hst het hest heet
    refine ⟨if pyTimeLeB hs es then hs else es, if pyTimeLeB ee he then he else ee,
            ?_, ?_, ?_, ?_, ?_, ?_, ?_⟩
    · simp only [mergeStep, hgi, hch, hlk, hgj,
                 widenEntry_some h e hs he es ee hst het hest heet]
    · by_cases hb : pyTimeLeB hs es = true
      · rw [if_pos hb]; left; rfl
      · rw [if_neg hb]; right; rfl
    · by_cases hb : pyTimeLeB hs es = true
      · rw [if_pos hb]; exact pyTimeLe_refl hs
      · rw [if_neg hb]
        exact pyTimeLeB_false (Bool.eq_false_iff.mpr hb)
    · by_cases hb : pyTimeLeB hs es = true
      · rw [if_pos hb]; exact pyTimeLeB_true hb
      · rw [if_neg hb]; exact pyTimeLe_refl es
    · by_cases hb : pyTimeLeB ee he = true
      · rw [if_pos hb]; left; rfl
      · rw [if_neg hb]; right; rfl
    · by_cases hb : pyTimeLeB ee he = true
      · rw [if_pos hb]; exact pyTimeLe_refl he
      · rw [if_neg hb]
        exact pyTimeLeB_false (Bool.eq_false_iff.mpr hb)
    · by_cases hb : pyTimeLeB ee he = true
      · rw [if_pos hb]; exact pyTimeLeB_true hb
      · rw [if_neg hb]; exact pyTimeLe_refl ee
  · rfl

/-- C2 witness: instantiation of the widening rule at the concrete merge
state reached after admitting the first of the two example heatmaps. -/
theorem merge_widens_admitted_entry_witness :
    ∃ m M,
      mergeStep 2 ⟨[hmC2a, hmC2b], [("Intro", 0)]⟩ 1 =
        .ok ⟨[hmC2a, hmC2b].set 0
               ⟨hmC2a.chapter, some m, some M, hmC2a.intensity_score_normalised⟩,
             [("Intro", 0)]⟩ ∧
      (m = ⟨0, 0, 15⟩ ∨ m = ⟨0, 0, 10⟩) ∧
      pyTimeLe m ⟨0, 0, 15⟩ ∧ pyTimeLe m ⟨0, 0, 10⟩ ∧
      (M = ⟨0, 0, 30⟩ ∨ M = ⟨0, 0, 20⟩) ∧
      pyTimeLe ⟨0, 0, 30⟩ M ∧ pyTimeLe ⟨0, 0, 20⟩ M :=
  merge_widens_admitted_entry.1 2 ⟨[hmC2a, hmC2b], [("Intro", 0)]⟩ 1 0 hmC2b hmC2a
    chIntroC2 ⟨0, 0, 15⟩ ⟨0, 0, 30⟩ ⟨0, 0, 10⟩ ⟨0, 0, 20⟩ rfl rfl rfl rfl rfl rfl rfl rfl

/-- C6 counterexample: a raw chapter list whose first offset is 5000
milliseconds produces a first chapter starting at 5 seconds, not 0 —
nothing forces the first start time to zero, so the extracted chapters
need not cover the interval from zero. -/
theorem first_chapter_start_not_forced_zero :
    get_chapters mdC6 60 = .ok [⟨"A", ⟨0, 0, 5⟩, ⟨0, 1, 0⟩, []⟩] ∧
    (⟨0, 0, 5⟩ : PyTime) ≠ (⟨0, 0, 0⟩ : PyTime) :=
  ⟨rfl, by decide⟩

/-- C6 amended: successful chapter extraction is index-aligned with the
raw list and gapless from the first start onward: each end time equals
the next start time and the last end time is the converted video
duration; the first start time is the conversion of the first raw
offset — zero only when that offset is below one second, not forced to
zero. -/
theorem chapters_adjacent_last_at_duration (md : List MarkerEntry) (dur : Nat)
    (raw : List RawChapter) (cs : List Chapter)
    (hraw : chapterDataOf md = .ok raw) (hok : get_chapters md dur = .ok cs) :
    cs.length = raw.length ∧
    (∀ i ci ci2, cs.get? i = some ci → cs.get? (i + 1) = some ci2 →
      ci.end_time = ci2.start_time) ∧
    (∀ cl, cs.getLast? = some cl → seconds_to_time (dur : Int) = .ok cl.end_time) ∧
    (∀ c0 r0, cs.head? = some c0 → raw.head? = some r0 →
      milliseconds_to_time r0.timeRangeStartMillis = .ok c0.start_time) := by
  have hbc : buildChapters dur raw = .ok cs := by
    unfold get_chapters at hok
    rw [hraw] at hok
    exact hok
  obtain ⟨hlen, hspec⟩ := buildChapters_spec dur raw cs hbc
  refine ⟨hlen, ?_, ?_, ?_⟩
  · intro i ci ci2 hci hci2
    obtain ⟨-, hend⟩ := hspec i ci hci
    obtain ⟨⟨rk, hrk, hrst⟩, -⟩ := hspec (i + 1) ci2 hci2
    rw [hrk] at hend
    have hcomb := hend.symm.trans hrst
    injection hcomb
  · intro cl hcl
    rw [List.getLast?_eq_get?] at hcl
    obtain ⟨-, hend⟩ := hspec (cs.length - 1) cl hcl
    have hne : cs ≠ [] := by
      intro hnil
      rw [hnil] at hcl
      simp at hcl
    have hpos : 0 < cs.length := List.length_pos.mpr hne
    have hnone : raw.get? (cs.length - 1 + 1) = none := by
      rw [List.get?_eq_none]
      omega
    rw [hnone] at hend
    exact hend
  · intro c0 r0 hc0 hr0
    have hc0g : cs.get? 0 = some c0 := by rw [List.get?_zero]; exact hc0
    obtain ⟨⟨rk, hrk, hrst⟩, -⟩ := hspec 0 c0 hc0g
    rw [List.get?_zero, hr0] at hrk
    injection hrk with hrk2
    rw [← hrk2] at hrst
    exact hrst

/-- C6 witness: two raw chapters at offsets 0 and 60000 milliseconds
with a duration of 120 seconds; the first chapter ends exactly where the
second starts. -/
theorem chapters_adjacent_last_at_duration_witness :
    (⟨"A", ⟨0, 0, 0⟩, ⟨0, 1, 0⟩, []⟩ : Chapter).end_time
      = (⟨"B", ⟨0, 1, 0⟩, ⟨0, 2, 0⟩, []⟩ : Chapter).start_time :=
  (chapters_adjacent_last_at_duration mdC6w 120 rawC6w csC6w rfl rfl).2.1 0
    ⟨"A", ⟨0, 0, 0⟩, ⟨0, 1, 0⟩, []⟩ ⟨"B", ⟨0, 1, 0⟩, ⟨0, 2, 0⟩, []⟩ rfl rfl
